import Mathlib

/-!
Verification of the sicpu expansion-bus core: peripheral discovery
(`src/lib/sys.c`), the command/status register protocol of the filesystem
driver (`src/lib/_c_files/vfs.c`), the camera and message-sender drivers
(`src/lib/_c_files/cam.c`, `src/lib/_c_files/message.c`, `src/lib/sys.c`),
and the interrupt-driven message daemon (`src/_capps/message_daemon.c`).

Machine model: the target is byte-addressed with 16-bit `int` (two bytes)
and one-byte `char`/`byte`; `int*` pointer arithmetic therefore scales by
two bytes (`camera_view_bw.c` writes `cam[1] // offset 0x02`).  Registers
are modelled as naturals, C strings as the list of bytes strictly before
the terminator, and each driver call as a list of register events.
Hardware behaviour that has no source in the repository (the filesystem
device behind ports 0xFF10-0xFF15, the interrupt mask register at 0xFF09)
is modelled from the spec and marked as such in the doc comments.
-/

namespace Sicpu

/-! ## Strings and peripheral discovery (stdio.c, sys.c) -/

/-- The byte-wise string comparison of `stdio.c` (`strcmp`, lines 39-48):
walk both strings while both current bytes are nonzero, returning the first
difference, and finish with the difference of the current bytes.  A C string
is modelled as the list of its bytes strictly before the null terminator. -/
def strcmp : List Nat → List Nat → Int
  | a :: s1, b :: s2 => if a = b then strcmp s1 s2 else (a : Int) - (b : Int)
  | [], [] => 0
  | [], b :: _ => 0 - (b : Int)
  | a :: _, [] => (a : Int) - 0

/-- The scan loop of `find_peripheral` (sys.c lines 44-54): starting at
`slot`, try `fuel` further slots; return the base address `0xFC00 + slot*16`
of the first slot whose name field equals the target, else 0. -/
def findLoop (names : Nat → List Nat) (target : List Nat) : Nat → Nat → Nat
  | 0, _ => 0
  | fuel + 1, slot =>
    if strcmp (names slot) target = 0 then 0xFC00 + slot * 16
    else findLoop names target fuel (slot + 1)

/-- `find_peripheral` from sys.c: scan the 16 expansion slots in ascending
order, comparing the name field (at slot base + 8, given here as `names i`)
against the target with `strcmp`; the scan reads the slot table and performs
no writes. -/
def find_peripheral (names : Nat → List Nat) (target : List Nat) : Nat :=
  findLoop names target 16 0

/-- On null-free byte lists (valid C string contents), `strcmp` returns 0
exactly on equal strings. -/
lemma strcmp_eq_zero (s t : List Nat) (hs : ∀ b ∈ s, b ≠ 0) (ht : ∀ b ∈ t, b ≠ 0) :
    strcmp s t = 0 ↔ s = t := by
  induction s generalizing t with
  | nil =>
    cases t with
    | nil => simp [strcmp]
    | cons b t =>
      have hb : b ≠ 0 := ht b (by simp)
      simp [strcmp]
      omega
  | cons a s ih =>
    cases t with
    | nil =>
      have ha : a ≠ 0 := hs a (by simp)
      simp [strcmp]
      omega
    | cons b t =>
      by_cases hab : a = b
      · subst hab
        have := ih t (fun x hx => hs x (by simp [hx])) (fun x hx => ht x (by simp [hx]))
        simp [strcmp, this]
      · have : (a : Int) - (b : Int) ≠ 0 := by
          intro h
          exact hab (by omega)
        simp [strcmp, hab, this]

lemma findLoop_spec (names : Nat → List Nat) (target : List Nat)
    (hT : ∀ b ∈ target, b ≠ 0) (hN : ∀ i, ∀ b ∈ names i, b ≠ 0)
    (fuel slot : Nat) :
    ((∀ k < fuel, names (slot + k) ≠ target) ∧ findLoop names target fuel slot = 0) ∨
    (∃ k < fuel, names (slot + k) = target ∧ (∀ m < k, names (slot + m) ≠ target) ∧
      findLoop names target fuel slot = 0xFC00 + (slot + k) * 16) := by
  induction fuel generalizing slot with
  | zero => exact .inl ⟨fun k hk => absurd hk (by omega), rfl⟩
  | succ n ih =>
    by_cases h : strcmp (names slot) target = 0
    · right
      have heq : names slot = target := (strcmp_eq_zero _ _ (hN slot) hT).mp h
      exact ⟨0, by omega, by simpa using heq, fun m hm => absurd hm (by omega),
        by simp [findLoop, h]⟩
    · have hne : names slot ≠ target := fun he =>
        h ((strcmp_eq_zero _ _ (hN slot) hT).mpr he)
      rcases ih (slot + 1) with ⟨hnone, hres⟩ | ⟨k, hk, hmat, hleast, hres⟩
      · left
        refine ⟨?_, by simp [findLoop, h, hres]⟩
        intro k hk
        cases k with
        | zero => simpa using hne
        | succ m =>
          have := hnone m (by omega)
          rw [show slot + (m + 1) = slot + 1 + m by omega]
          exact this
      · right
        refine ⟨k + 1, by omega, ?_, ?_, ?_⟩
        · rw [show slot + (k + 1) = slot + 1 + k by omega]
          exact hmat
        · intro m hm
          cases m with
          | zero => simpa using hne
          | succ m =>
            have := hleast m (by omega)
            rw [show slot + (m + 1) = slot + 1 + m by omega]
            exact this
        · rw [findLoop, if_neg h, hres, show slot + (k + 1) = slot + 1 + k by omega]

/-- Claim C4: for every null-terminated target, `find_peripheral` examines
slots 0..15 in ascending order comparing each name field byte-wise, returns
`0xFC00 + 16 * i` for the lowest-indexed matching slot `i`, and the sentinel
0 when no slot matches; being a pure function of the slot table it performs
no writes. -/
theorem find_peripheral_first_match (names : Nat → List Nat) (target : List Nat)
    (hT : ∀ b ∈ target, b ≠ 0) (hN : ∀ i, ∀ b ∈ names i, b ≠ 0) :
    ((∀ i < 16, names i ≠ target) ∧ find_peripheral names target = 0) ∨
    (∃ i < 16, names i = target ∧ (∀ j < i, names j ≠ target) ∧
      find_peripheral names target = 0xFC00 + 16 * i) := by
  have h := findLoop_spec names target hT hN 16 0
  rcases h with ⟨hnone, hres⟩ | ⟨k, hk, hmat, hleast, hres⟩
  · exact .inl ⟨fun i hi => by simpa using hnone i hi, hres⟩
  · refine .inr ⟨k, hk, by simpa using hmat, fun j hj => by simpa using hleast j hj, ?_⟩
    rw [find_peripheral, hres]
    ring_nf

/-- The name bytes of the "CAMERA" peripheral. -/
def cameraName : List Nat := [67, 65, 77, 69, 82, 65]

/-- The name bytes of the "MSGSNDR" peripheral. -/
def msgsndrName : List Nat := [77, 83, 71, 83, 78, 68, 82]

/-- Slot table of the spec's concrete scenario: "CAMERA" at index 2 and
"MSGSNDR" at index 5, every other slot empty. -/
def demoNames : Nat → List Nat := fun i =>
  if i = 2 then cameraName else if i = 5 then msgsndrName else []

theorem find_peripheral_first_match_witness :
    ((∀ i < 16, demoNames i ≠ msgsndrName) ∧ find_peripheral demoNames msgsndrName = 0) ∨
    (∃ i < 16, demoNames i = msgsndrName ∧ (∀ j < i, demoNames j ≠ msgsndrName) ∧
      find_peripheral demoNames msgsndrName = 0xFC00 + 16 * i) :=
  find_peripheral_first_match demoNames msgsndrName (by decide)
    (by
      intro i b hb
      by_cases h2 : i = 2
      · subst h2
        simp [demoNames, cameraName] at hb
        omega
      · by_cases h5 : i = 5
        · subst h5
          simp [demoNames, msgsndrName] at hb
          omega
        · simp [demoNames, h2, h5] at hb)

/-! ## Register events and the command/status exchange (vfs.c) -/

/-- One memory-mapped register access: a write of a value to an address, or
a read of an address. -/
inductive RegEv where
  | write (addr val : Nat)
  | read (addr : Nat)
deriving DecidableEq

/-- Filesystem command port (vfs.c line 2). -/
def VFS_CMD : Nat := 0xFF10

/-- Filesystem filename-pointer port (vfs.c line 3). -/
def VFS_NAME : Nat := 0xFF11

/-- Filesystem buffer-pointer port (vfs.c line 4). -/
def VFS_BUF : Nat := 0xFF12

/-- Filesystem size port (vfs.c line 5). -/
def VFS_SIZE : Nat := 0xFF13

/-- Filesystem status port (vfs.c line 6). -/
def VFS_STAT : Nat := 0xFF14

/-- Filesystem high-word size port (vfs.c line 7). -/
def VFS_SIZE_H : Nat := 0xFF15

/-- ExecWait command code (vfs.c line 9). -/
def CMD_EXEC_WAIT : Nat := 8

/-- Delete command code (vfs_advanced_test.c line 12). -/
def CMD_DELETE : Nat := 4

/-- List command code (vfs_advanced_test.c line 13). -/
def CMD_LIST : Nat := 5

/-- FreeSpace command code (vfs_advanced_test.c line 14). -/
def CMD_FREESPACE : Nat := 6

/-- GetMeta command code (vfs_advanced_test.c line 15). -/
def CMD_GETMETA : Nat := 7

/-- Register accesses of `vfs_write` (vfs.c lines 13-21): name, buffer and
size parameters, then the Write command (code 2), then the status read. -/
def vfs_write_trace (filename buffer length : Nat) : List RegEv :=
  [RegEv.write VFS_NAME filename, RegEv.write VFS_BUF buffer,
   RegEv.write VFS_SIZE length, RegEv.write VFS_CMD 2, RegEv.read VFS_STAT]

/-- Register accesses of `vfs_read` (vfs.c lines 34-41): name and buffer
parameters, then the Read command (code 1), then the status read. -/
def vfs_read_trace (filename buffer : Nat) : List RegEv :=
  [RegEv.write VFS_NAME filename, RegEv.write VFS_BUF buffer,
   RegEv.write VFS_CMD 1, RegEv.read VFS_STAT]

/-- Register accesses of `vfs_size_calc` (vfs.c lines 45-53): name parameter,
the Size command (code 3), the status read, and a read of the size port only
when the status was 0. -/
def vfs_size_calc_trace (filename stat : Nat) : List RegEv :=
  [RegEv.write VFS_NAME filename, RegEv.write VFS_CMD 3, RegEv.read VFS_STAT] ++
    (if stat = 0 then [RegEv.read VFS_SIZE] else [])

/-- Register accesses of `vfs_delete` (vfs.c lines 57-62): name parameter,
the Delete command (code 4), then the status read. -/
def vfs_delete_trace (filename : Nat) : List RegEv :=
  [RegEv.write VFS_NAME filename, RegEv.write VFS_CMD 4, RegEv.read VFS_STAT]

/-- Register accesses of `vfs_exec_wait` (vfs.c lines 25-29): name parameter,
the ExecWait command (code 8), then the status read. -/
def vfs_exec_wait_trace (filename : Nat) : List RegEv :=
  [RegEv.write VFS_NAME filename, RegEv.write VFS_CMD CMD_EXEC_WAIT, RegEv.read VFS_STAT]

/-- An address of one of the filesystem parameter ports. -/
def isParamAddr (a : Nat) : Prop := a = VFS_NAME ∨ a = VFS_BUF ∨ a = VFS_SIZE

/-- One command/status exchange with command code `code`: some parameter
writes, then the single command write, then the status read, with no
register write after the command write. -/
def exchangeOK (code : Nat) (t : List RegEv) : Prop :=
  ∃ ps rest,
    t = ps ++ RegEv.write VFS_CMD code :: RegEv.read VFS_STAT :: rest ∧
    (∀ e ∈ ps, ∃ a v, e = RegEv.write a v ∧ isParamAddr a) ∧
    ∀ a v, RegEv.write a v ∉ rest

/-- Claim C5: each filesystem driver operation is one command/status
exchange — parameter writes, then the command write, then the status read,
with no parameter write after the command write — and the command codes are
Read=1, Write=2, Size=3, Delete=4, List=5, FreeSpace=6, GetMeta=7,
ExecWait=8. -/
theorem vfs_exchange_discipline (fn buf len stat : Nat) :
    exchangeOK 2 (vfs_write_trace fn buf len) ∧
    exchangeOK 1 (vfs_read_trace fn buf) ∧
    exchangeOK 3 (vfs_size_calc_trace fn stat) ∧
    exchangeOK 4 (vfs_delete_trace fn) ∧
    exchangeOK 8 (vfs_exec_wait_trace fn) ∧
    CMD_LIST = 5 ∧ CMD_FREESPACE = 6 ∧ CMD_GETMETA = 7 ∧
    CMD_EXEC_WAIT = 8 ∧ CMD_DELETE = 4 := by
  refine ⟨?_, ?_, ?_, ?_, ?_, rfl, rfl, rfl, rfl, rfl⟩
  · refine ⟨[RegEv.write VFS_NAME fn, RegEv.write VFS_BUF buf, RegEv.write VFS_SIZE len],
      [], rfl, ?_, by simp⟩
    intro e he
    simp only [List.mem_cons, List.not_mem_nil, or_false] at he
    rcases he with rfl | rfl | rfl
    · exact ⟨VFS_NAME, fn, rfl, .inl rfl⟩
    · exact ⟨VFS_BUF, buf, rfl, .inr (.inl rfl)⟩
    · exact ⟨VFS_SIZE, len, rfl, .inr (.inr rfl)⟩
  · refine ⟨[RegEv.write VFS_NAME fn, RegEv.write VFS_BUF buf], [], rfl, ?_, by simp⟩
    intro e he
    simp only [List.mem_cons, List.not_mem_nil, or_false] at he
    rcases he with rfl | rfl
    · exact ⟨VFS_NAME, fn, rfl, .inl rfl⟩
    · exact ⟨VFS_BUF, buf, rfl, .inr (.inl rfl)⟩
  · refine ⟨[RegEv.write VFS_NAME fn], if stat = 0 then [RegEv.read VFS_SIZE] else [],
      rfl, ?_, ?_⟩
    · intro e he
      simp only [List.mem_cons, List.not_mem_nil, or_false] at he
      rcases he with rfl
      exact ⟨VFS_NAME, fn, rfl, .inl rfl⟩
    · intro a v h
      by_cases hs : stat = 0 <;> simp [hs] at h
  · refine ⟨[RegEv.write VFS_NAME fn], [], rfl, ?_, by simp⟩
    intro e he
    simp only [List.mem_cons, List.not_mem_nil, or_false] at he
    rcases he with rfl
    exact ⟨VFS_NAME, fn, rfl, .inl rfl⟩
  · refine ⟨[RegEv.write VFS_NAME fn], [], rfl, ?_, by simp⟩
    intro e he
    simp only [List.mem_cons, List.not_mem_nil, or_false] at he
    rcases he with rfl
    exact ⟨VFS_NAME, fn, rfl, .inl rfl⟩

/-! ## Expansion-slot drivers (cam.c, message.c, sys.c) -/

/-- Camera buffer-offset constant of cam.c line 1 (a byte offset, 0x0002). -/
def CAMERA_BUF_OFFSET : Nat := 0x0002

/-- Camera width-offset constant of cam.c line 2 (a byte offset, 0x0004). -/
def CAMERA_W_OFFSET : Nat := 0x0004

/-- Camera height-offset constant of cam.c line 3 (a byte offset, 0x0006). -/
def CAMERA_H_OFFSET : Nat := 0x0006

/-- Register writes of `takepicture` (cam.c lines 11-30) with the camera
found at byte address `cam`.  The offsets are added to an `int*`, and `int*`
arithmetic on this machine scales by two bytes (camera_view_bw.c line 59
reads `cam[1]` as byte offset 0x02), so each define lands at twice its
value: the buffer address goes to byte offset 4, width to 8, height to 12.
The capture command (code 1) is written to the slot base, offset 0. -/
def takepicture_trace (cam bufferStart : Nat) : List RegEv :=
  [RegEv.write (cam + 2 * CAMERA_BUF_OFFSET) bufferStart,
   RegEv.write (cam + 2 * CAMERA_W_OFFSET) 128,
   RegEv.write (cam + 2 * CAMERA_H_OFFSET) 128,
   RegEv.write cam 1]

/-- Message-sender recipient offset (message.c line 1, in `int` words). -/
def MSGSNDR_TO_OFFSET : Nat := 1

/-- Message-sender body offset (message.c line 2, in `int` words). -/
def MSGSNDR_BODY_OFFSET : Nat := 2

/-- Message-sender length offset (message.c line 3, in `int` words). -/
def MSGSNDR_LEN_OFFSET : Nat := 3

/-- Register writes of `send_message` (message.c lines 6-25) with the sender
found at byte address `sender`: the word offsets 1..3 scale to byte offsets
2, 4, 6, and the send command (code 1) is written to the slot base. -/
def send_message_trace (sender sendTo bodyAddr len : Nat) : List RegEv :=
  [RegEv.write (sender + 2 * MSGSNDR_TO_OFFSET) sendTo,
   RegEv.write (sender + 2 * MSGSNDR_BODY_OFFSET) bodyAddr,
   RegEv.write (sender + 2 * MSGSNDR_LEN_OFFSET) len,
   RegEv.write sender 1]

/-- Register writes of `send_msg` (sys.c lines 57-64): the slot base
`0xFC00 + slot*16` is computed but never used, and the writes go to the
fixed slot-0 addresses `MSG_TO` 0xFC02, `MSG_BODY` 0xFC04, `MSG_LEN` 0xFC06
and `MSG_CMD` 0xFC00 (sys.c lines 3-6) whatever `slot` is. -/
def send_msg_trace (slot sendTo bodyAddr len : Nat) : List RegEv :=
  [RegEv.write 0xFC02 sendTo, RegEv.write 0xFC04 bodyAddr,
   RegEv.write 0xFC06 len, RegEv.write 0xFC00 1]

/-- Every register write of the trace hits the slot's command register at
`base` or one of the word-offset-1..3 parameter registers at byte offsets
2, 4, 6 from `base`. -/
def slotParamWrites (base : Nat) (t : List RegEv) : Prop :=
  ∀ a v, RegEv.write a v ∈ t → a = base ∨ a = base + 2 ∨ a = base + 4 ∨ a = base + 6

/-- Claim C9: `send_msg` writes recipient, body pointer, length and the send
command code 1 to the fixed addresses 0xFC02, 0xFC04, 0xFC06 and 0xFC00 —
the slot-0 register block — so its register writes are identical for every
value of the slot argument. -/
theorem send_msg_ignores_slot (s t sendTo bodyAddr len : Nat) :
    send_msg_trace s sendTo bodyAddr len = send_msg_trace t sendTo bodyAddr len ∧
    send_msg_trace s sendTo bodyAddr len =
      [RegEv.write 0xFC02 sendTo, RegEv.write 0xFC04 bodyAddr,
       RegEv.write 0xFC06 len, RegEv.write 0xFC00 1] :=
  ⟨rfl, rfl⟩

/-- Claim C6 (code bug): with the camera at slot base 0xFC00, `takepicture`
writes its buffer parameter to byte address 0xFC04 (word offset 2), and
width and height to 0xFC08 and 0xFC0C — 0xFC08 being the name field — so
its parameter writes miss the word-offset-1..3 parameter registers, while
`send_msg` and `send_message` do keep every write inside the command
register and the offset-1..3 parameter registers. -/
theorem takepicture_param_regs_bug :
    takepicture_trace 0xFC00 0x4000 =
      [RegEv.write 0xFC04 0x4000, RegEv.write 0xFC08 128,
       RegEv.write 0xFC0C 128, RegEv.write 0xFC00 1] ∧
    (RegEv.write 0xFC08 128 ∈ takepicture_trace 0xFC00 0x4000 ∧
      ∀ k ≤ 3, 0xFC08 ≠ 0xFC00 + 2 * k) ∧
    (∀ s sendTo bodyAddr len, slotParamWrites 0xFC00 (send_msg_trace s sendTo bodyAddr len)) ∧
    (∀ base sendTo bodyAddr len, slotParamWrites base (send_message_trace base sendTo bodyAddr len)) := by
  refine ⟨rfl, ⟨by decide, by decide⟩, ?_, ?_⟩
  · intro s sendTo bodyAddr len a v h
    simp [send_msg_trace] at h
    rcases h with ⟨h, _⟩ | ⟨h, _⟩ | ⟨h, _⟩ | ⟨h, _⟩ <;> omega
  · intro base sendTo bodyAddr len a v h
    simp [send_message_trace, MSGSNDR_TO_OFFSET, MSGSNDR_BODY_OFFSET, MSGSNDR_LEN_OFFSET] at h
    rcases h with ⟨h, _⟩ | ⟨h, _⟩ | ⟨h, _⟩ | ⟨h, _⟩ <;> omega

/-! ## Filesystem device state (spec-modelled) and the vfs.c drivers -/

/-- Modelled from the spec: the filesystem device behind ports 0xFF10-0xFF15
has no source in the repository; per §4.3 it maps names to byte contents,
and a Write may fail with status 2 (Full), represented by the abstract
`fullFlag`. -/
structure VfsState where
  files : String → Option (List Nat)
  fullFlag : Bool

/-- Modelled from the spec: the device's Write command — store the bytes
under the name with status 0 (Success), or leave the state unchanged with
status 2 (Full). -/
def dev_write (st : VfsState) (name : String) (bytes : List Nat) : VfsState × Nat :=
  if st.fullFlag then (st, 2)
  else ({ st with files := fun m => if m = name then some bytes else st.files m }, 0)

/-- Modelled from the spec: the device's Read command — the stored bytes
with status 0 (Success), or nothing with status 1 (NotFound). -/
def dev_read (st : VfsState) (name : String) : Option (List Nat) × Nat :=
  match st.files name with
  | some bs => (some bs, 0)
  | none => (none, 1)

/-- Modelled from the spec: the device's Delete command — remove the file
with status 0 (Success), or status 1 (NotFound). -/
def dev_delete (st : VfsState) (name : String) : VfsState × Nat :=
  match st.files name with
  | some _ => ({ st with files := fun m => if m = name then none else st.files m }, 0)
  | none => (st, 1)

/-- The `vfs_write` driver (vfs.c lines 13-21) against the device state: it
passes the first `len` bytes of the caller's buffer and returns the status
register. -/
def vfs_write (st : VfsState) (name : String) (buf : Nat → Nat) (len : Nat) :
    VfsState × Nat :=
  dev_write st name ((List.range len).map buf)

/-- The `vfs_read` driver (vfs.c lines 34-41) against the device state: on
success the file's bytes are deposited at the start of the caller's buffer;
the status register is returned. -/
def vfs_read (st : VfsState) (name : String) (buf : Nat → Nat) : (Nat → Nat) × Nat :=
  match dev_read st name with
  | (some bs, s) => (fun i => if i < bs.length then bs.getD i 0 else buf i, s)
  | (none, s) => (buf, s)

/-- The result of `vfs_size_calc` (vfs.c lines 45-53) as a function of the
status and size registers it reads after issuing the Size command: -1
whenever the status is non-zero, else the size register. -/
def vfs_size_calc (stat sizeReg : Nat) : Int :=
  if stat ≠ 0 then -1 else (sizeReg : Int)

/-- Claim C7: `vfs_size_calc` returns -1 for every non-zero status —
whatever error kind the non-zero value encodes — and the size register's
value when the status is 0; its result is always one of those two, so the
raw error code never reaches the caller. -/
theorem vfs_size_collapses_errors (stat sizeReg : Nat) :
    (stat ≠ 0 → vfs_size_calc stat sizeReg = -1) ∧
    (stat = 0 → vfs_size_calc stat sizeReg = (sizeReg : Int)) ∧
    (vfs_size_calc stat sizeReg = -1 ∨ vfs_size_calc stat sizeReg = (sizeReg : Int)) := by
  by_cases h : stat = 0 <;> simp [vfs_size_calc, h]

/-- Claim C8: when `vfs_write name bytes` reports success, a `vfs_read` of
the same name with no intervening delete succeeds and deposits exactly the
written bytes in the reader's buffer. -/
theorem write_read_roundtrip (st : VfsState) (name : String) (buf : Nat → Nat)
    (len : Nat) (rbuf : Nat → Nat) (h : (vfs_write st name buf len).2 = 0) :
    (vfs_read (vfs_write st name buf len).1 name rbuf).2 = 0 ∧
    ∀ i < len, (vfs_read (vfs_write st name buf len).1 name rbuf).1 i = buf i := by
  have hf : st.fullFlag = false := by
    by_contra hc
    rw [Bool.not_eq_false] at hc
    simp [vfs_write, dev_write, hc] at h
  constructor
  · simp [vfs_read, vfs_write, dev_write, dev_read, hf]
  · intro i hi
    simp only [vfs_read, vfs_write, dev_write, dev_read, hf, Bool.false_eq_true,
      if_false, if_pos rfl]
    simp [List.getD_eq_getElem?_getD, List.getElem?_map, hi]

/-- The all-zero buffer used by the concrete witnesses. -/
def zeroBuf : Nat → Nat := fun _ => 0

/-- The buffer holding the spec scenario's six bytes "HELLO\0". -/
def helloBuf : Nat → Nat := fun i => [72, 69, 76, 76, 79, 0].getD i 0

/-- An empty, non-full filesystem device state. -/
def emptyVfs : VfsState := ⟨fun _ => none, false⟩

theorem write_read_roundtrip_witness :
    (vfs_read (vfs_write emptyVfs "TEST.TXT" helloBuf 6).1 "TEST.TXT" zeroBuf).2 = 0 ∧
    ∀ i < 6, (vfs_read (vfs_write emptyVfs "TEST.TXT" helloBuf 6).1 "TEST.TXT" zeroBuf).1 i
      = helloBuf i :=
  write_read_roundtrip emptyVfs "TEST.TXT" helloBuf 6 zeroBuf rfl

/-! ## The interrupt pipeline (message_daemon.c) -/

/-- Address of the interrupt mask register (message_daemon.c line 37). -/
def INT_MASK_ADDR : Nat := 0xFF09

/-- The inbox mailbox filename (message_daemon.c line 65). -/
def INBOX : String := "INBOX.MSG"

/-- The sender mailbox filename (message_daemon.c line 66). -/
def SENDER : String := "SENDER.MSG"

/-- The report the daemon prints in each branch of the servicing pass. -/
inductive Report where
  | received
  | readError
  | tooLarge
  | notFound
deriving DecidableEq

/-- One observable action of a servicing pass: a printed report, a
`vfs_read` of a mailbox file, a `vfs_delete` of a mailbox file, or a raw
register write. -/
inductive Ev where
  | report (r : Report)
  | readFile (name : String)
  | del (name : String)
  | writeReg (addr val : Nat)
deriving DecidableEq

/-- The daemon's view of the filesystem during one servicing pass: the
result each `vfs_size` call returns (-1 on any non-zero status), the status
each `vfs_read` returns, and the buffer contents a read leaves behind.
Keeping these abstract lets the pass be analysed also when the files change
between the size lookup and the read (the race of spec §4.6 step 5). -/
structure VfsOracle where
  sizeRes : String → Int
  readRes : String → Int
  readBuf : String → (Nat → Nat) → (Nat → Nat)

/-- Result of one servicing pass: the ordered actions, the 16-bit pending
register after the pass, and the two 256-byte receive buffers. -/
structure IsrOut where
  events : List Ev
  pendingAfter : Nat
  buffer : Nat → Nat
  senderBuffer : Nat → Nat

/-- The mask computation of the handler (message_daemon.c lines 56-59):
`mask = 1` doubled `RECV_SLOT` times in a 16-bit int. -/
def maskLoop : Nat → Nat
  | 0 => 1
  | n + 1 => maskLoop n * 2 % 65536

/-- Modelled from the spec: the interrupt mask register's write semantics
("read = pending, write = selective clear", §6) — writing `v` clears
exactly the bits of `v` in the 16-bit pending register. -/
def maskRegWrite (pending v : Nat) : Nat := pending &&& (65535 ^^^ v)

/-- The servicing body of the handler (message_daemon.c lines 61-99, the
code under `(pending & mask) != 0`): its ordered actions and the final
contents of the two receive buffers.  It mirrors the source: read the sizes
of both mailbox files; if either is negative report "not found"; if either
is at least 255 report "too large"; otherwise read both files, store a
terminator at each reported size and report the message, or report a read
error; and delete both files exactly when the size checks passed. -/
def isrPhase (io : VfsOracle) (buf0 sbuf0 : Nat → Nat) :
    List Ev × (Nat → Nat) × (Nat → Nat) :=
  let size := io.sizeRes INBOX
  let senderSize := io.sizeRes SENDER
  if 0 ≤ size ∧ 0 ≤ senderSize then
    if size < 255 ∧ senderSize < 255 then
      let errSender := io.readRes SENDER
      let errMsg := io.readRes INBOX
      let sbuf1 := io.readBuf SENDER sbuf0
      let buf1 := io.readBuf INBOX buf0
      if errSender = 0 ∧ errMsg = 0 then
        ([Ev.readFile SENDER, Ev.readFile INBOX, Ev.report Report.received,
          Ev.del INBOX, Ev.del SENDER],
         Function.update buf1 size.toNat 0, Function.update sbuf1 senderSize.toNat 0)
      else
        ([Ev.readFile SENDER, Ev.readFile INBOX, Ev.report Report.readError,
          Ev.del INBOX, Ev.del SENDER], buf1, sbuf1)
    else
      ([Ev.report Report.tooLarge, Ev.del INBOX, Ev.del SENDER], buf0, sbuf0)
  else
    ([Ev.report Report.notFound], buf0, sbuf0)

/-- The interrupt handler `isr` of message_daemon.c (lines 40-108) for a
registered receiver slot `recvSlot` (main clamps it to 0..15 and the
`RECV_SLOT != -1` guard has passed), as a function of the pending register
snapshot, the filesystem oracle and the initial buffer contents.  When the
registered slot's bit is pending, the servicing body runs and is followed
by the command-code-1 write to the receiver slot's register block (lines
101-102) and the write of `mask` to the interrupt mask register (line 105);
otherwise nothing happens. -/
def isr (recvSlot pending : Nat) (io : VfsOracle) (buf0 sbuf0 : Nat → Nat) : IsrOut :=
  let mask := maskLoop recvSlot
  if pending &&& mask ≠ 0 then
    { events := (isrPhase io buf0 sbuf0).1 ++ [Ev.writeReg (0xFC00 + recvSlot * 16) 1,
        Ev.writeReg INT_MASK_ADDR mask],
      pendingAfter := maskRegWrite pending mask,
      buffer := (isrPhase io buf0 sbuf0).2.1,
      senderBuffer := (isrPhase io buf0 sbuf0).2.2 }
  else
    { events := [], pendingAfter := pending, buffer := buf0, senderBuffer := sbuf0 }

/-- The oracle induced by a fixed file map: sizes are the stored lengths
(-1 when absent), reads succeed exactly on stored files and deposit the
stored bytes at the start of the buffer. -/
def oracleOf (f : String → Option (List Nat)) : VfsOracle where
  sizeRes n := match f n with | some bs => (bs.length : Int) | none => -1
  readRes n := match f n with | some _ => 0 | none => 1
  readBuf n b := match f n with
    | some bs => fun i => if i < bs.length then bs.getD i 0 else b i
    | none => b

/-- Replay the file deletions of an action list over a file map. -/
def applyEvents (f : String → Option (List Nat)) : List Ev → (String → Option (List Nat))
  | [] => f
  | Ev.del n :: rest => applyEvents (fun m => if m = n then none else f m) rest
  | _ :: rest => applyEvents f rest

/-! ### Interrupt pipeline lemmas -/

lemma maskLoop_eq : ∀ S, S ≤ 15 → maskLoop S = 2 ^ S := by
  intro S
  induction S with
  | zero => intro _; rfl
  | succ n ih =>
    intro hS
    rw [maskLoop, ih (by omega), ← pow_succ]
    apply Nat.mod_eq_of_lt
    calc 2 ^ (n + 1) ≤ 2 ^ 15 := Nat.pow_le_pow_right (by norm_num) (by omega)
    _ < 65536 := by norm_num

lemma and_two_pow_ne_zero (p S : Nat) (h : p.testBit S = true) : p &&& 2 ^ S ≠ 0 := by
  rw [Nat.and_two_pow, h]
  simp [(Nat.two_pow_pos S).ne']

lemma maskRegWrite_own (p S : Nat) (hS : S < 16) :
    (maskRegWrite p (2 ^ S)).testBit S = false := by
  rw [maskRegWrite, Nat.testBit_and, Nat.testBit_xor,
    show (65535 : Nat) = 2 ^ 16 - 1 by norm_num, Nat.testBit_two_pow_sub_one,
    Nat.testBit_two_pow_self]
  simp [hS]

lemma maskRegWrite_other (p S j : Nat) (hp : p < 65536) (hj : j ≠ S) :
    (maskRegWrite p (2 ^ S)).testBit j = p.testBit j := by
  rw [maskRegWrite, Nat.testBit_and, Nat.testBit_xor,
    show (65535 : Nat) = 2 ^ 16 - 1 by norm_num, Nat.testBit_two_pow_sub_one,
    Nat.testBit_two_pow_of_ne (Ne.symm hj)]
  by_cases h16 : j < 16
  · simp [h16]
  · have h1 : (65536 : Nat) = 2 ^ 16 := by norm_num
    have h2 : (2 : Nat) ^ 16 ≤ 2 ^ j := Nat.pow_le_pow_right (by norm_num) (by omega)
    have hpj : p.testBit j = false := Nat.testBit_lt_two_pow (by omega)
    simp [h16, hpj]

lemma isrPhase_no_reads_of_sizeFail (io : VfsOracle) (b0 s0 : Nat → Nat)
    (h : ¬(0 ≤ io.sizeRes INBOX ∧ 0 ≤ io.sizeRes SENDER)) (n : String) :
    Ev.readFile n ∉ (isrPhase io b0 s0).1 := by
  simp [isrPhase, h]

lemma isrPhase_notFound (io : VfsOracle) (b0 s0 : Nat → Nat)
    (h : ¬(0 ≤ io.sizeRes INBOX ∧ 0 ≤ io.sizeRes SENDER)) :
    isrPhase io b0 s0 = ([Ev.report Report.notFound], b0, s0) := by
  simp [isrPhase, h]

lemma isrPhase_tooLarge (io : VfsOracle) (b0 s0 : Nat → Nat)
    (h0 : 0 ≤ io.sizeRes INBOX ∧ 0 ≤ io.sizeRes SENDER)
    (h1 : ¬(io.sizeRes INBOX < 255 ∧ io.sizeRes SENDER < 255)) :
    isrPhase io b0 s0 =
      ([Ev.report Report.tooLarge, Ev.del INBOX, Ev.del SENDER], b0, s0) := by
  simp [isrPhase, h0, h1]

lemma isrPhase_readError (io : VfsOracle) (b0 s0 : Nat → Nat)
    (h0 : 0 ≤ io.sizeRes INBOX ∧ 0 ≤ io.sizeRes SENDER)
    (h1 : io.sizeRes INBOX < 255 ∧ io.sizeRes SENDER < 255)
    (h2 : ¬(io.readRes SENDER = 0 ∧ io.readRes INBOX = 0)) :
    isrPhase io b0 s0 =
      ([Ev.readFile SENDER, Ev.readFile INBOX, Ev.report Report.readError,
        Ev.del INBOX, Ev.del SENDER],
       io.readBuf INBOX b0, io.readBuf SENDER s0) := by
  simp [isrPhase, h0, h1, h2]

lemma isrPhase_received (io : VfsOracle) (b0 s0 : Nat → Nat)
    (h0 : 0 ≤ io.sizeRes INBOX ∧ 0 ≤ io.sizeRes SENDER)
    (h1 : io.sizeRes INBOX < 255 ∧ io.sizeRes SENDER < 255)
    (h2 : io.readRes SENDER = 0 ∧ io.readRes INBOX = 0) :
    isrPhase io b0 s0 =
      ([Ev.readFile SENDER, Ev.readFile INBOX, Ev.report Report.received,
        Ev.del INBOX, Ev.del SENDER],
       Function.update (io.readBuf INBOX b0) (io.sizeRes INBOX).toNat 0,
       Function.update (io.readBuf SENDER s0) (io.sizeRes SENDER).toNat 0) := by
  simp [isrPhase, h0, h1, h2]

lemma isrPhase_no_writes (io : VfsOracle) (b0 s0 : Nat → Nat) (a v : Nat) :
    Ev.writeReg a v ∉ (isrPhase io b0 s0).1 := by
  by_cases h0 : 0 ≤ io.sizeRes INBOX ∧ 0 ≤ io.sizeRes SENDER
  · by_cases h1 : io.sizeRes INBOX < 255 ∧ io.sizeRes SENDER < 255
    · by_cases h2 : io.readRes SENDER = 0 ∧ io.readRes INBOX = 0
      · rw [isrPhase_received io b0 s0 h0 h1 h2]
        simp
      · rw [isrPhase_readError io b0 s0 h0 h1 h2]
        simp
    · rw [isrPhase_tooLarge io b0 s0 h0 h1]
      simp
  · rw [isrPhase_notFound io b0 s0 h0]
    simp

lemma isr_events_serviced (S pending : Nat) (io : VfsOracle) (b0 s0 : Nat → Nat)
    (h : pending &&& maskLoop S ≠ 0) :
    (isr S pending io b0 s0).events =
      (isrPhase io b0 s0).1 ++ [Ev.writeReg (0xFC00 + S * 16) 1,
        Ev.writeReg INT_MASK_ADDR (maskLoop S)] := by
  simp [isr, h]

lemma isr_pendingAfter_serviced (S pending : Nat) (io : VfsOracle) (b0 s0 : Nat → Nat)
    (h : pending &&& maskLoop S ≠ 0) :
    (isr S pending io b0 s0).pendingAfter = maskRegWrite pending (maskLoop S) := by
  simp [isr, h]

lemma isr_buffer_serviced (S pending : Nat) (io : VfsOracle) (b0 s0 : Nat → Nat)
    (h : pending &&& maskLoop S ≠ 0) :
    (isr S pending io b0 s0).buffer = (isrPhase io b0 s0).2.1 := by
  simp [isr, h]

lemma isr_senderBuffer_serviced (S pending : Nat) (io : VfsOracle) (b0 s0 : Nat → Nat)
    (h : pending &&& maskLoop S ≠ 0) :
    (isr S pending io b0 s0).senderBuffer = (isrPhase io b0 s0).2.2 := by
  simp [isr, h]

lemma isr_events_idle (S pending : Nat) (io : VfsOracle) (b0 s0 : Nat → Nat)
    (h : ¬pending &&& maskLoop S ≠ 0) :
    (isr S pending io b0 s0).events = [] := by
  simp [isr, h]

lemma isr_pendingAfter_idle (S pending : Nat) (io : VfsOracle) (b0 s0 : Nat → Nat)
    (h : ¬pending &&& maskLoop S ≠ 0) :
    (isr S pending io b0 s0).pendingAfter = pending := by
  simp [isr, h]

/-! ### The interrupt pipeline claims -/

/-- Claim C1: the handler's doubling loop computes `mask = 1 <<< S`
(`maskLoop S = 2 ^ S`) for every slot 0..15; every value it writes to the
interrupt mask register during a pass is exactly that mask, never a broader
value; and the pending bit of every other slot `j ≠ S` is unchanged by the
pass (the mask-register write clears only the written bits). -/
theorem isr_clears_only_own_bit (S pending : Nat) (io : VfsOracle) (b0 s0 : Nat → Nat)
    (hS : S ≤ 15) (hp : pending < 65536) :
    maskLoop S = 2 ^ S ∧
    (∀ v, Ev.writeReg INT_MASK_ADDR v ∈ (isr S pending io b0 s0).events → v = 2 ^ S) ∧
    (∀ j, j ≠ S → (isr S pending io b0 s0).pendingAfter.testBit j = pending.testBit j) := by
  have hm : maskLoop S = 2 ^ S := maskLoop_eq S hS
  refine ⟨hm, ?_, ?_⟩
  · intro v hv
    by_cases h : pending &&& maskLoop S ≠ 0
    · rw [isr_events_serviced S pending io b0 s0 h] at hv
      rcases List.mem_append.mp hv with hv | hv
      · exact absurd hv (isrPhase_no_writes io b0 s0 INT_MASK_ADDR v)
      · simp only [List.mem_cons, List.not_mem_nil, or_false] at hv
        rcases hv with hv | hv
        · injection hv with h1 h2
          rw [INT_MASK_ADDR] at h1
          omega
        · injection hv with h1 h2
          rw [h2, hm]
    · rw [isr_events_idle S pending io b0 s0 h] at hv
      simp at hv
  · intro j hj
    by_cases h : pending &&& maskLoop S ≠ 0
    · rw [isr_pendingAfter_serviced S pending io b0 s0 h, hm]
      exact maskRegWrite_other pending S j hp hj
    · rw [isr_pendingAfter_idle S pending io b0 s0 h]

/-- The empty file map used by the concrete witnesses. -/
def noFiles : String → Option (List Nat) := fun _ => none

theorem isr_clears_only_own_bit_witness :
    maskLoop 3 = 2 ^ 3 ∧
    (∀ v, Ev.writeReg INT_MASK_ADDR v ∈ (isr 3 136 (oracleOf noFiles) zeroBuf zeroBuf).events →
      v = 2 ^ 3) ∧
    (∀ j, j ≠ 3 →
      (isr 3 136 (oracleOf noFiles) zeroBuf zeroBuf).pendingAfter.testBit j =
        (136 : Nat).testBit j) :=
  isr_clears_only_own_bit 3 136 (oracleOf noFiles) zeroBuf zeroBuf (by decide) (by decide)

/-- Claim C10: in every pass in which the registered slot's pending bit is
set, after the report/delete phase and before the mask-clearing write, the
handler writes the command code 1 to the receiver slot's command register
at `0xFC00 + 16 * S`. -/
theorem isr_ack_write (S pending : Nat) (io : VfsOracle) (b0 s0 : Nat → Nat)
    (hS : S ≤ 15) (hbit : pending.testBit S = true) :
    ∃ pre, (isr S pending io b0 s0).events =
        pre ++ [Ev.writeReg (0xFC00 + 16 * S) 1, Ev.writeReg INT_MASK_ADDR (2 ^ S)] ∧
      ∀ a v, Ev.writeReg a v ∉ pre := by
  have hm := maskLoop_eq S hS
  have h : pending &&& maskLoop S ≠ 0 := by
    rw [hm]
    exact and_two_pow_ne_zero pending S hbit
  refine ⟨(isrPhase io b0 s0).1, ?_, fun a v => isrPhase_no_writes io b0 s0 a v⟩
  rw [isr_events_serviced S pending io b0 s0 h, hm, Nat.mul_comm S 16]

theorem isr_ack_write_witness :
    ∃ pre, (isr 3 136 (oracleOf noFiles) zeroBuf zeroBuf).events =
        pre ++ [Ev.writeReg (0xFC00 + 16 * 3) 1, Ev.writeReg INT_MASK_ADDR (2 ^ 3)] ∧
      ∀ a v, Ev.writeReg a v ∉ pre :=
  isr_ack_write 3 136 (oracleOf noFiles) zeroBuf zeroBuf (by decide) (by decide)

/-- Claim C2: when the registered slot's pending bit is set and both
mailbox files exist with sizes under 255 bytes, one servicing pass deletes
both files, clears the mask bit for the slot, reports the received message,
and leaves each receive buffer holding exactly the file's bytes with a
terminator stored at the reported size — an in-bounds index of the 256-byte
buffer, the size being at most 254. -/
theorem isr_delivers (S pending : Nat) (f : String → Option (List Nat))
    (body sender : List Nat) (b0 s0 : Nat → Nat)
    (hS : S ≤ 15) (hbit : pending.testBit S = true)
    (hin : f INBOX = some body) (hsd : f SENDER = some sender)
    (hb : body.length < 255) (hs : sender.length < 255) :
    applyEvents f (isr S pending (oracleOf f) b0 s0).events INBOX = none ∧
    applyEvents f (isr S pending (oracleOf f) b0 s0).events SENDER = none ∧
    (isr S pending (oracleOf f) b0 s0).pendingAfter.testBit S = false ∧
    Ev.report Report.received ∈ (isr S pending (oracleOf f) b0 s0).events ∧
    body.length ≤ 254 ∧ sender.length ≤ 254 ∧
    (∀ i < body.length, (isr S pending (oracleOf f) b0 s0).buffer i = body.getD i 0) ∧
    (isr S pending (oracleOf f) b0 s0).buffer body.length = 0 ∧
    (∀ i < sender.length,
      (isr S pending (oracleOf f) b0 s0).senderBuffer i = sender.getD i 0) ∧
    (isr S pending (oracleOf f) b0 s0).senderBuffer sender.length = 0 := by
  have hm := maskLoop_eq S hS
  have h : pending &&& maskLoop S ≠ 0 := by
    rw [hm]
    exact and_two_pow_ne_zero pending S hbit
  have hsize : (oracleOf f).sizeRes INBOX = (body.length : Int) := by
    simp [oracleOf, hin]
  have hssize : (oracleOf f).sizeRes SENDER = (sender.length : Int) := by
    simp [oracleOf, hsd]
  have h0 : 0 ≤ (oracleOf f).sizeRes INBOX ∧ 0 ≤ (oracleOf f).sizeRes SENDER := by
    rw [hsize, hssize]
    exact ⟨Int.natCast_nonneg _, Int.natCast_nonneg _⟩
  have h1 : (oracleOf f).sizeRes INBOX < 255 ∧ (oracleOf f).sizeRes SENDER < 255 := by
    rw [hsize, hssize]
    exact ⟨by exact_mod_cast hb, by exact_mod_cast hs⟩
  have h2 : (oracleOf f).readRes SENDER = 0 ∧ (oracleOf f).readRes INBOX = 0 := by
    simp [oracleOf, hin, hsd]
  have hph := isrPhase_received (oracleOf f) b0 s0 h0 h1 h2
  have hev := isr_events_serviced S pending (oracleOf f) b0 s0 h
  rw [hph] at hev
  simp only [] at hev
  have hbuf := isr_buffer_serviced S pending (oracleOf f) b0 s0 h
  have hsbuf := isr_senderBuffer_serviced S pending (oracleOf f) b0 s0 h
  rw [hph] at hbuf hsbuf
  simp only [] at hbuf hsbuf
  rw [hsize] at hbuf
  rw [hssize] at hsbuf
  have hrb : (oracleOf f).readBuf INBOX b0 =
      fun i => if i < body.length then body.getD i 0 else b0 i := by
    simp [oracleOf, hin]
  have hrs : (oracleOf f).readBuf SENDER s0 =
      fun i => if i < sender.length then sender.getD i 0 else s0 i := by
    simp [oracleOf, hsd]
  rw [hrb, Int.toNat_natCast] at hbuf
  rw [hrs, Int.toNat_natCast] at hsbuf
  refine ⟨?_, ?_, ?_, ?_, by omega, by omega, ?_, ?_, ?_, ?_⟩
  · rw [hev]
    simp only [applyEvents]
    have : INBOX ≠ SENDER := by simp [INBOX, SENDER]
    simp [this]
  · rw [hev]
    simp only [applyEvents]
    simp
  · rw [isr_pendingAfter_serviced S pending (oracleOf f) b0 s0 h, hm]
    exact maskRegWrite_own pending S (by omega)
  · rw [hev]
    simp
  · intro i hi
    rw [hbuf, Function.update_noteq (by omega), if_pos hi]
  · rw [hbuf, Function.update_same]
  · intro i hi
    rw [hsbuf, Function.update_noteq (by omega), if_pos hi]
  · rw [hsbuf, Function.update_same]

/-- The file map of the concrete delivery witness: a two-byte inbox body
and a one-byte sender. -/
def demoFiles : String → Option (List Nat) := fun n =>
  if n = INBOX then some [72, 73] else if n = SENDER then some [77] else none

theorem isr_delivers_witness :
    applyEvents demoFiles (isr 3 136 (oracleOf demoFiles) zeroBuf zeroBuf).events INBOX
      = none ∧
    applyEvents demoFiles (isr 3 136 (oracleOf demoFiles) zeroBuf zeroBuf).events SENDER
      = none ∧
    (isr 3 136 (oracleOf demoFiles) zeroBuf zeroBuf).pendingAfter.testBit 3 = false ∧
    Ev.report Report.received ∈ (isr 3 136 (oracleOf demoFiles) zeroBuf zeroBuf).events ∧
    ([72, 73] : List Nat).length ≤ 254 ∧ ([77] : List Nat).length ≤ 254 ∧
    (∀ i < ([72, 73] : List Nat).length,
      (isr 3 136 (oracleOf demoFiles) zeroBuf zeroBuf).buffer i =
        ([72, 73] : List Nat).getD i 0) ∧
    (isr 3 136 (oracleOf demoFiles) zeroBuf zeroBuf).buffer ([72, 73] : List Nat).length
      = 0 ∧
    (∀ i < ([77] : List Nat).length,
      (isr 3 136 (oracleOf demoFiles) zeroBuf zeroBuf).senderBuffer i =
        ([77] : List Nat).getD i 0) ∧
    (isr 3 136 (oracleOf demoFiles) zeroBuf zeroBuf).senderBuffer ([77] : List Nat).length
      = 0 :=
  isr_delivers 3 136 demoFiles [72, 73] [77] zeroBuf zeroBuf (by decide) (by decide)
    (by decide) (by decide) (by decide) (by decide)

/-- Claim C3: when the registered slot's pending bit is set but servicing
fails, the handler reports the corresponding error — "not found" on a
negative size lookup, "too large" when either size is at least 255, a read
error when a read fails after the size checks — it reads no file in the
first two cases, it always clears the registered slot's mask bit, and it
deletes both mailbox files exactly when both size lookups succeeded. -/
theorem isr_failure_handling (S pending : Nat) (io : VfsOracle) (b0 s0 : Nat → Nat)
    (hS : S ≤ 15) (hbit : pending.testBit S = true) :
    ((io.sizeRes INBOX < 0 ∨ io.sizeRes SENDER < 0) →
      Ev.report Report.notFound ∈ (isr S pending io b0 s0).events ∧
      ∀ n, Ev.readFile n ∉ (isr S pending io b0 s0).events) ∧
    (0 ≤ io.sizeRes INBOX → 0 ≤ io.sizeRes SENDER →
      (255 ≤ io.sizeRes INBOX ∨ 255 ≤ io.sizeRes SENDER) →
      Ev.report Report.tooLarge ∈ (isr S pending io b0 s0).events ∧
      ∀ n, Ev.readFile n ∉ (isr S pending io b0 s0).events) ∧
    (0 ≤ io.sizeRes INBOX → 0 ≤ io.sizeRes SENDER →
      io.sizeRes INBOX < 255 → io.sizeRes SENDER < 255 →
      ¬(io.readRes SENDER = 0 ∧ io.readRes INBOX = 0) →
      Ev.report Report.readError ∈ (isr S pending io b0 s0).events) ∧
    (isr S pending io b0 s0).pendingAfter.testBit S = false ∧
    ((Ev.del INBOX ∈ (isr S pending io b0 s0).events ∧
      Ev.del SENDER ∈ (isr S pending io b0 s0).events) ↔
      (0 ≤ io.sizeRes INBOX ∧ 0 ≤ io.sizeRes SENDER)) := by
  have hm := maskLoop_eq S hS
  have h : pending &&& maskLoop S ≠ 0 := by
    rw [hm]
    exact and_two_pow_ne_zero pending S hbit
  have hev := isr_events_serviced S pending io b0 s0 h
  refine ⟨?_, ?_, ?_, ?_, ?_⟩
  · intro hneg
    have h0 : ¬(0 ≤ io.sizeRes INBOX ∧ 0 ≤ io.sizeRes SENDER) := by
      rcases hneg with hneg | hneg <;> omega
    rw [hev, isrPhase_notFound io b0 s0 h0]
    constructor
    · simp
    · intro n
      simp
  · intro ha hb hover
    have h0 : 0 ≤ io.sizeRes INBOX ∧ 0 ≤ io.sizeRes SENDER := ⟨ha, hb⟩
    have h1 : ¬(io.sizeRes INBOX < 255 ∧ io.sizeRes SENDER < 255) := by
      rcases hover with hover | hover <;> omega
    rw [hev, isrPhase_tooLarge io b0 s0 h0 h1]
    constructor
    · simp
    · intro n
      simp
  · intro ha hb hc hd h2
    have h0 : 0 ≤ io.sizeRes INBOX ∧ 0 ≤ io.sizeRes SENDER := ⟨ha, hb⟩
    have h1 : io.sizeRes INBOX < 255 ∧ io.sizeRes SENDER < 255 := ⟨hc, hd⟩
    rw [hev, isrPhase_readError io b0 s0 h0 h1 h2]
    simp
  · rw [isr_pendingAfter_serviced S pending io b0 s0 h, hm]
    exact maskRegWrite_own pending S (by omega)
  · constructor
    · intro ⟨hdel, _⟩
      by_contra h0
      rw [hev, isrPhase_notFound io b0 s0 h0] at hdel
      simp at hdel
    · intro h0
      by_cases h1 : io.sizeRes INBOX < 255 ∧ io.sizeRes SENDER < 255
      · by_cases h2 : io.readRes SENDER = 0 ∧ io.readRes INBOX = 0
        · rw [hev, isrPhase_received io b0 s0 h0 h1 h2]
          simp
        · rw [hev, isrPhase_readError io b0 s0 h0 h1 h2]
          simp
      · rw [hev, isrPhase_tooLarge io b0 s0 h0 h1]
        simp

/-- An oracle on which every size lookup fails: both files absent. -/
def failOracle : VfsOracle := ⟨fun _ => -1, fun _ => 1, fun _ b => b⟩

theorem isr_failure_handling_witness :
    ((failOracle.sizeRes INBOX < 0 ∨ failOracle.sizeRes SENDER < 0) →
      Ev.report Report.notFound ∈ (isr 3 136 failOracle zeroBuf zeroBuf).events ∧
      ∀ n, Ev.readFile n ∉ (isr 3 136 failOracle zeroBuf zeroBuf).events) ∧
    (0 ≤ failOracle.sizeRes INBOX → 0 ≤ failOracle.sizeRes SENDER →
      (255 ≤ failOracle.sizeRes INBOX ∨ 255 ≤ failOracle.sizeRes SENDER) →
      Ev.report Report.tooLarge ∈ (isr 3 136 failOracle zeroBuf zeroBuf).events ∧
      ∀ n, Ev.readFile n ∉ (isr 3 136 failOracle zeroBuf zeroBuf).events) ∧
    (0 ≤ failOracle.sizeRes INBOX → 0 ≤ failOracle.sizeRes SENDER →
      failOracle.sizeRes INBOX < 255 → failOracle.sizeRes SENDER < 255 →
      ¬(failOracle.readRes SENDER = 0 ∧ failOracle.readRes INBOX = 0) →
      Ev.report Report.readError ∈ (isr 3 136 failOracle zeroBuf zeroBuf).events) ∧
    (isr 3 136 failOracle zeroBuf zeroBuf).pendingAfter.testBit 3 = false ∧
    ((Ev.del INBOX ∈ (isr 3 136 failOracle zeroBuf zeroBuf).events ∧
      Ev.del SENDER ∈ (isr 3 136 failOracle zeroBuf zeroBuf).events) ↔
      (0 ≤ failOracle.sizeRes INBOX ∧ 0 ≤ failOracle.sizeRes SENDER)) :=
  isr_failure_handling 3 136 failOracle zeroBuf zeroBuf (by decide) (by decide)

end Sicpu
